import Mathlib

/-!
Shallow embedding of the `FormValidator` form-validation engine
(`src/form-validator.ts`, the completed variant) together with its data
model (`src/types/types.ts`).  The DOM is modelled as the capability set
the engine actually uses: a lookup from field name to the input element
`input-{fieldName}` (attribute reads plus current value) and a lookup
from field name to the error element `error-{fieldName}` (text content
and display style).  JavaScript numbers reachable here are modelled as
`Option ℚ`, `none` standing for `NaN`; every comparison against `NaN`
is `false`, as in JavaScript.
-/

set_option autoImplicit false

/-- A JavaScript number as it occurs in this program: a rational, or `NaN`
(modelled as `none`).  `Infinity` is unreachable from the parsers below. -/
abbrev JsNum := Option ℚ

/-- JavaScript `String.prototype.trim`, modelled over ASCII whitespace
(the characters occurring in this program's values). -/
def jsTrim (s : String) : String :=
  String.mk (((s.data.dropWhile Char.isWhitespace).reverse.dropWhile Char.isWhitespace).reverse)

/-- Numeric value of a list of decimal digit characters. -/
def digitsVal (cs : List Char) : Nat :=
  cs.foldl (fun a c => a * 10 + (c.toNat - 48)) 0

/-- Splits an optional leading sign from a character list, returning the
sign as an integer factor. -/
def splitSign (cs : List Char) : Int × List Char :=
  match cs with
  | '+' :: t => (1, t)
  | '-' :: t => (-1, t)
  | _ => (1, cs)

/-- JavaScript `Number(value)` on an already-trimmed string, over the plain
decimal grammar `[+-]? digits [. digits]? | [+-]? . digits` (the only
shapes reachable from the engine's inputs); any other non-empty string
coerces to `NaN` (`none`), and the empty string coerces to `0`. -/
def jsNumber (s : String) : JsNum :=
  if s = "" then some 0 else
    let (sign, cs) := splitSign s.data
    let ip := cs.takeWhile Char.isDigit
    let rest := cs.dropWhile Char.isDigit
    match rest with
    | [] => if ip.isEmpty then none else some (mkRat (sign * digitsVal ip) 1)
    | '.' :: fr =>
      let fd := fr.takeWhile Char.isDigit
      let rest2 := fr.dropWhile Char.isDigit
      if rest2.isEmpty ∧ ¬(ip.isEmpty ∧ fd.isEmpty) then
        some (mkRat (sign * (digitsVal ip * 10 ^ fd.length + digitsVal fd)) (10 ^ fd.length))
      else none
    | _ => none

/-- JavaScript `parseInt(s, 10)`: optional sign then the longest leading
run of decimal digits; `NaN` (`none`) when that run is empty. -/
def parseIntJs (s : String) : JsNum :=
  let (sign, cs) := splitSign (jsTrim s).data
  let ip := cs.takeWhile Char.isDigit
  if ip.isEmpty then none else some (mkRat (sign * digitsVal ip) 1)

/-- JavaScript `parseFloat(s)`: optional sign, longest leading decimal
number (integer part, optional point and fraction part), trailing
characters ignored; `NaN` (`none`) when no digits are found. -/
def parseFloatJs (s : String) : JsNum :=
  let (sign, cs) := splitSign (jsTrim s).data
  let ip := cs.takeWhile Char.isDigit
  let rest := cs.dropWhile Char.isDigit
  match rest with
  | '.' :: fr =>
    let fd := fr.takeWhile Char.isDigit
    if ip.isEmpty ∧ fd.isEmpty then none
    else some (mkRat (sign * (digitsVal ip * 10 ^ fd.length + digitsVal fd)) (10 ^ fd.length))
  | _ => if ip.isEmpty then none else some (mkRat (sign * digitsVal ip) 1)

/-- Decimal string of `n` padded on the left with zeros to at least
`k + 1` digits. -/
def natDigitsPadded (n k : Nat) : String :=
  let s := toString n
  String.mk (List.replicate (k + 1 - s.length) '0') ++ s

/-- Rendering of a (finite) JavaScript number into a template string, as
performed by template-literal interpolation: integers print without a
point, terminating decimals with the minimal number of fraction digits.
The exponent search uses the reduced denominator of the rational; a
denominator with no terminating decimal expansion cannot arise from this
program's parsers and falls back to a fraction rendering. -/
def qRepr (q : ℚ) : String :=
  let sign := if q.num < 0 then "-" else ""
  match (List.range 40).find? (fun k => q.den ∣ 10 ^ k) with
  | some 0 => sign ++ toString q.num.natAbs
  | some (k + 1) =>
    let s := natDigitsPadded (q.num.natAbs * (10 ^ (k + 1) / q.den)) (k + 1)
    let d := s.data
    sign ++ String.mk (d.take (d.length - (k + 1))) ++ "." ++
      String.mk (d.drop (d.length - (k + 1)))
  | none => sign ++ toString q.num.natAbs ++ "/" ++ toString q.den

/-- Template-literal interpolation of a JavaScript number (`NaN` prints
as `"NaN"`). -/
def jsNumRepr (v : JsNum) : String :=
  match v with
  | none => "NaN"
  | some q => qRepr q

/-- Template-literal interpolation of a possibly-absent rule bound
(an absent property prints as `"undefined"`). -/
def boundRepr (o : Option JsNum) : String :=
  match o with
  | none => "undefined"
  | some v => jsNumRepr v

/-- JavaScript `v < m` where the rule bound `m` may be absent
(`numRules.min !== undefined && numValue < numRules.min`): `false` when
the bound is absent or either side is `NaN`. -/
def jsLtB (v : JsNum) (m : Option JsNum) : Bool :=
  match v, m with
  | some a, some (some b) => decide (a < b)
  | _, _ => false

/-- JavaScript `v > m` with a possibly-absent bound, `NaN`-propagating. -/
def jsGtB (v : JsNum) (m : Option JsNum) : Bool :=
  match v, m with
  | some a, some (some b) => decide (a > b)
  | _, _ => false

/-- JavaScript `value.length < m` with a possibly-absent bound `m`
(`NaN` bound compares `false`). -/
def lenLtB (n : Nat) (m : Option JsNum) : Bool :=
  match m with
  | some (some b) => decide ((n : ℚ) < b)
  | _ => false

/-- JavaScript `value.length > m` with a possibly-absent bound. -/
def lenGtB (n : Nat) (m : Option JsNum) : Bool :=
  match m with
  | some (some b) => decide ((n : ℚ) > b)
  | _ => false

/-- The closed enumeration of field types (`TFieldTypes` as used by the
completed validator: `text`, `email`, `password` string-like, `number`
numeric). -/
inductive FieldType where
  | text
  | email
  | password
  | number
deriving DecidableEq

/-- A rule set (`Rule<T>` flattened over all field types): each key is
`none` when the property is absent from the object.  `pattern` is
modelled by the match function of the regular expression it holds, and
`getMessage` by the string the zero-argument callback returns. -/
structure Rule where
  required : Option Bool := none
  minLength : Option JsNum := none
  maxLength : Option JsNum := none
  pattern : Option (String → Bool) := none
  min : Option JsNum := none
  max : Option JsNum := none
  getMessage : Option String := none

/-- The rule-set shape legal for string-like field types
(`FinalStringRules = Partial (TStringRule and CommonRule)`). -/
structure StringRuleArg where
  required : Option Bool := none
  minLength : Option JsNum := none
  maxLength : Option JsNum := none
  pattern : Option (String → Bool) := none
  getMessage : Option String := none

/-- The rule-set shape legal for the numeric field type
(`FinalNumberRules = Partial (TNumberRule and CommonRule)`). -/
structure NumberRuleArg where
  required : Option Bool := none
  min : Option JsNum := none
  max : Option JsNum := none
  getMessage : Option String := none

/-- The statically-typed rule argument accepted by `addField` for each
field type (`Rule<T>` in the source's TypeScript signature). -/
def RuleArg : FieldType → Type
  | .number => NumberRuleArg
  | _ => StringRuleArg

/-- Inclusion of a string-like rule argument into the flattened rule
representation; the numeric keys are absent by typing. -/
def strToRule (a : StringRuleArg) : Rule :=
  { required := a.required, minLength := a.minLength, maxLength := a.maxLength,
    pattern := a.pattern, getMessage := a.getMessage }

/-- Inclusion of a numeric rule argument into the flattened rule
representation; the string-like keys are absent by typing. -/
def numToRule (a : NumberRuleArg) : Rule :=
  { required := a.required, min := a.min, max := a.max, getMessage := a.getMessage }

/-- Inclusion of a typed rule argument into the flattened representation. -/
def toRule : (ty : FieldType) → RuleArg ty → Rule
  | .number, a => numToRule a
  | .text, a => strToRule a
  | .email, a => strToRule a
  | .password, a => strToRule a

/-- An input element as the engine reads it: the attributes consulted by
rule extraction and the current value.  The `pattern` attribute is
modelled by the match function of the regular expression it denotes
(`new RegExp(attr)` is the regex collaborator's compilation). -/
structure InputElem where
  value : String
  requiredAttr : Bool := false
  minlengthAttr : Option String := none
  maxlengthAttr : Option String := none
  patternAttr : Option (String → Bool) := none
  minAttr : Option String := none
  maxAttr : Option String := none

/-- The form's input elements: `inputs name` models
`form.querySelector("#input-" ++ name)`. -/
abbrev Inputs := String → Option InputElem

/-- An error-display element: its text content and display style. -/
structure ErrorElem where
  textContent : String
  display : String
deriving DecidableEq

/-- The form's error elements: `errors name` models
`form.querySelector("#error-" ++ name)`. -/
abbrev Errors := String → Option ErrorElem

/-- A field configuration (`TFieldConfig`): the registered name, type,
the caller-supplied rules, the markup-derived rules, and their merge. -/
structure TFieldConfig where
  fieldName : String
  type : FieldType
  rules : Rule
  htmlRules : Rule
  finalRules : Rule

/-- A produced validation error (`ValidationError`). -/
structure ValidationError where
  fieldName : String
  message : String
deriving DecidableEq

/-- Right-biased override of one rule key, as object spread performs it:
a key present on the right wins, otherwise the left value passes
through. -/
def ov {α : Type} (h j : Option α) : Option α :=
  match j with
  | some v => some v
  | none => h

/-- The source's `#mergeRules(htmlRules, jsRules)`: the object spread
`{...htmlRules, ...jsRules}`, i.e. key-by-key right-hand precedence. -/
def mergeRules (htmlRules jsRules : Rule) : Rule :=
  { required := ov htmlRules.required jsRules.required,
    minLength := ov htmlRules.minLength jsRules.minLength,
    maxLength := ov htmlRules.maxLength jsRules.maxLength,
    pattern := ov htmlRules.pattern jsRules.pattern,
    min := ov htmlRules.min jsRules.min,
    max := ov htmlRules.max jsRules.max,
    getMessage := ov htmlRules.getMessage jsRules.getMessage }

/-- The source's `#extractHtmlRules(fieldName, type)`: throws when the
input element `input-{fieldName}` does not resolve, otherwise reads
`required` always, `minlength`/`maxlength`/`pattern` for non-numeric
types, and `min`/`max` for the numeric type. -/
def extractHtmlRules (inputs : Inputs) (fieldName : String) (ty : FieldType) :
    Except String Rule :=
  match inputs fieldName with
  | none => .error ("Input not found: input-" ++ fieldName)
  | some input =>
    .ok
      { required := if input.requiredAttr then some true else none,
        minLength := if ty ≠ .number then input.minlengthAttr.map parseIntJs else none,
        maxLength := if ty ≠ .number then input.maxlengthAttr.map parseIntJs else none,
        pattern := if ty ≠ .number then input.patternAttr else none,
        min := if ty = .number then input.minAttr.map parseFloatJs else none,
        max := if ty = .number then input.maxAttr.map parseFloatJs else none,
        getMessage := none }

/-- Replacement-or-append on the registry, as `Map.set` behaves: an
existing key keeps its position and gets the new configuration, a new
key is appended at the end (insertion order). -/
def setField : List TFieldConfig → TFieldConfig → List TFieldConfig
  | [], cfg => [cfg]
  | c :: t, cfg => if c.fieldName = cfg.fieldName then cfg :: t else c :: setField t cfg

/-- The caller-supplied rules as the engine stores and merges them:
`rules || \x7b\x7d`, i.e. the empty rule set when the argument is
omitted. -/
def jsRulesOf (ty : FieldType) (rules : Option (RuleArg ty)) : Rule :=
  match rules with
  | some a => toRule ty a
  | none => {}

/-- The source's `addField(fieldName, type, rules?)` acting on the field
registry: extracts markup rules (throwing, as `Except.error`, when the
input element is missing), merges, and stores the configuration. -/
def addField (inputs : Inputs) (st : List TFieldConfig) (fieldName : String)
    (ty : FieldType) (rules : Option (RuleArg ty)) : Except String (List TFieldConfig) :=
  match extractHtmlRules inputs fieldName ty with
  | .error e => .error e
  | .ok htmlRules =>
    .ok (setField st
      { fieldName := fieldName, type := ty, rules := jsRulesOf ty rules,
        htmlRules := htmlRules, finalRules := mergeRules htmlRules (jsRulesOf ty rules) })

/-- The source's `#getDefaultErrorMessage(rule, rules)`: the fixed
default-message table, interpolating the relevant bound, with the
generic fallback for unrecognized keys. -/
def getDefaultErrorMessage (rule : String) (rules : Rule) : String :=
  if rule = "required" then "Это поле обязательно"
  else if rule = "minLength" then "Минимум " ++ boundRepr rules.minLength ++ " символов"
  else if rule = "maxLength" then "Максимум " ++ boundRepr rules.maxLength ++ " символов"
  else if rule = "pattern" then "Неверный формат"
  else if rule = "min" then "Минимальное значение: " ++ boundRepr rules.min
  else if rule = "max" then "Максимальное значение: " ++ boundRepr rules.max
  else "Ошибка валидации"

/-- The message expression `rules.getMessage?.() || default`: the
override's return value when the override is present and its result is
truthy (a non-empty string), otherwise the default. -/
def orDefault (gm : Option String) (d : String) : String :=
  match gm with
  | some m => if m = "" then d else m
  | none => d

/-- Truthiness of `rules.required` (a boolean property or absent). -/
def requiredTruthy (r : Rule) : Prop := r.required = some true

instance (r : Rule) : Decidable (requiredTruthy r) :=
  inferInstanceAs (Decidable (r.required = some true))

/-- Truthiness of `strRules.pattern && !strRules.pattern.test(value)`:
the pattern object is truthy exactly when present, and then the violation
is a failed match. -/
def patternFailB (p : Option (String → Bool)) (value : String) : Bool :=
  match p with
  | some test => ! test value
  | none => false

/-- The source's `#validateField(config)`: resolves the input element
(absent means no violation), trims the value, and runs the short-circuit
rule chain — `required`, emptiness exemption, then `min`/`max` for the
numeric type or `minLength`/`maxLength`/`pattern` for string-like
types — resolving each violation's message through
`getMessage?.() || default`. -/
def validateField (inputs : Inputs) (config : TFieldConfig) : Option ValidationError :=
  match inputs config.fieldName with
  | none => none
  | some input =>
    let value := jsTrim input.value
    let rules := config.finalRules
    if requiredTruthy rules ∧ value = "" then
      some ⟨config.fieldName, orDefault rules.getMessage (getDefaultErrorMessage "required" rules)⟩
    else if value = "" then
      none
    else if config.type = .number then
      let numValue := jsNumber value
      if jsLtB numValue rules.min then
        some ⟨config.fieldName, orDefault rules.getMessage (getDefaultErrorMessage "min" rules)⟩
      else if jsGtB numValue rules.max then
        some ⟨config.fieldName, orDefault rules.getMessage (getDefaultErrorMessage "max" rules)⟩
      else none
    else
      if lenLtB value.length rules.minLength then
        some ⟨config.fieldName, orDefault rules.getMessage (getDefaultErrorMessage "minLength" rules)⟩
      else if lenGtB value.length rules.maxLength then
        some ⟨config.fieldName, orDefault rules.getMessage (getDefaultErrorMessage "maxLength" rules)⟩
      else if patternFailB rules.pattern value then
        some ⟨config.fieldName, orDefault rules.getMessage (getDefaultErrorMessage "pattern" rules)⟩
      else none

/-- Pointwise update of one error element. -/
def setErrorElem (e : Errors) (n : String) (el : ErrorElem) : Errors :=
  fun m => if m = n then some el else e m

/-- The source's `#showError(fieldName, message)`: when the error element
resolves, set its text to the message and its display to `block`. -/
def showError (e : Errors) (fieldName message : String) : Errors :=
  match e fieldName with
  | some _ => setErrorElem e fieldName ⟨message, "block"⟩
  | none => e

/-- One iteration of `#clearErrors()`'s loop: when the field's error
element resolves, blank its text and hide it. -/
def clearStep (acc : Errors) (cfg : TFieldConfig) : Errors :=
  match acc cfg.fieldName with
  | some _ => setErrorElem acc cfg.fieldName ⟨"", "none"⟩
  | none => acc

/-- The source's `#clearErrors()`: for every registered field whose error
element resolves, blank the text and hide the element. -/
def clearErrors (fields : List TFieldConfig) (e : Errors) : Errors :=
  fields.foldl clearStep e

/-- One iteration of `validate()`'s field loop: a violation flips the
overall flag to `false` and renders the message. -/
def renderStep (inputs : Inputs) (acc : Bool × Errors) (cfg : TFieldConfig) : Bool × Errors :=
  match validateField inputs cfg with
  | some err => (false, showError acc.2 err.fieldName err.message)
  | none => acc

/-- The source's `validate()`: clear all error indicators, then fold the
per-field check over the registry in insertion order, returning the
overall flag and the final error-element state. -/
def validate (fields : List TFieldConfig) (inputs : Inputs) (errors : Errors) :
    Bool × Errors :=
  fields.foldl (renderStep inputs) (true, clearErrors fields errors)

/-- The closed set of violation kinds named by the specification. -/
inductive ViolationKind where
  | required
  | min
  | max
  | minLength
  | maxLength
  | pattern
deriving DecidableEq

/-- The default-message table key of a violation kind. -/
def vkKey : ViolationKind → String
  | .required => "required"
  | .min => "min"
  | .max => "max"
  | .minLength => "minLength"
  | .maxLength => "maxLength"
  | .pattern => "pattern"

/-- Message resolution for a violation of the given kind: the
`getMessage` override when present and truthy, otherwise the default
table entry. -/
def resolveMessage (r : Rule) (k : ViolationKind) : String :=
  orDefault r.getMessage (getDefaultErrorMessage (vkKey k) r)

/-- Per-field algorithm as the specification words it (first matching
violation wins): the required check on the trimmed value first, then the
emptiness exemption, then for numeric fields `min` before `max`, and for
string-like fields `minLength` before `maxLength` before `pattern`.
This definition follows the specification text and is compared against
`validateField`, which is translated from the source. -/
def specFieldViolation (inputs : Inputs) (config : TFieldConfig) : Option ViolationKind :=
  match inputs config.fieldName with
  | none => none
  | some input =>
    let value := jsTrim input.value
    let rules := config.finalRules
    if requiredTruthy rules ∧ value = "" then some .required
    else if value = "" then none
    else if config.type = .number then
      if jsLtB (jsNumber value) rules.min then some .min
      else if jsGtB (jsNumber value) rules.max then some .max
      else none
    else
      if lenLtB value.length rules.minLength then some .minLength
      else if lenGtB value.length rules.maxLength then some .maxLength
      else if patternFailB rules.pattern value then some .pattern
      else none

/-- The names of the keys a rule-set object can hold, for key-by-key
statements about rule merging. -/
inductive RKey where
  | required
  | minLength
  | maxLength
  | pattern
  | min
  | max
  | getMessage
deriving DecidableEq

/-- The value stored under a rule key: a boolean, a number, a compiled
regular expression (its match function), or a message string. -/
inductive RVal where
  | b (v : Bool)
  | n (v : JsNum)
  | re (f : String → Bool)
  | s (v : String)

/-- Key-indexed read of a rule set: `none` when the key is absent. -/
def Rule.get (r : Rule) : RKey → Option RVal
  | .required => r.required.map RVal.b
  | .minLength => r.minLength.map RVal.n
  | .maxLength => r.maxLength.map RVal.n
  | .pattern => r.pattern.map RVal.re
  | .min => r.min.map RVal.n
  | .max => r.max.map RVal.n
  | .getMessage => r.getMessage.map RVal.s

/-- The keys legal for a field type: a numeric field never carries
`pattern`/`minLength`/`maxLength`, and a string-like field never carries
`min`/`max`. -/
def legalRule (ty : FieldType) (r : Rule) : Prop :=
  match ty with
  | .number => r.minLength = none ∧ r.maxLength = none ∧ r.pattern = none
  | _ => r.min = none ∧ r.max = none

/-- One `addField` invocation: the field name, the field type, and the
optional explicitly-supplied rules (typed by the field type, as in the
TypeScript signature). -/
structure RegCall where
  fieldName : String
  ty : FieldType
  rules : Option (RuleArg ty)

/-- A sequence of registrations, run left to right; a thrown
configuration error aborts the rest of the sequence, as an uncaught
exception does. -/
def runRegs (inputs : Inputs) (st : List TFieldConfig) :
    List RegCall → Except String (List TFieldConfig)
  | [] => .ok st
  | c :: t =>
    match addField inputs st c.fieldName c.ty c.rules with
    | .error e => .error e
    | .ok st' => runRegs inputs st' t

/-- Scenario DOM for the `getMessage`-override analysis: one `username`
input, left empty, with an empty-string `getMessage` override. -/
def c4inputs : Inputs := fun n =>
  if n = "username" then some { value := "" } else none

/-- Field configuration whose `getMessage` override returns the empty
string while `required` is violated. -/
def c4cfg : TFieldConfig :=
  { fieldName := "username", type := .text, rules := {}, htmlRules := {},
    finalRules := { required := some true, getMessage := some "" } }

/-- Scenario DOM where the `getMessage` override returns `"Custom"`. -/
def c4winputs : Inputs := fun n =>
  if n = "username" then some { value := "" } else none

/-- Field configuration with a truthy `getMessage` override and a
`required` violation. -/
def c4wcfg : TFieldConfig :=
  { fieldName := "username", type := .text, rules := {}, htmlRules := {},
    finalRules := { required := some true, getMessage := some "Custom" } }

/-- Scenario A DOM: required `username` left empty, no override. -/
def c5inputs : Inputs := fun n =>
  if n = "username" then some { value := "" } else none

/-- Scenario A configuration: `required` with no `getMessage` override. -/
def c5cfg : TFieldConfig :=
  { fieldName := "username", type := .text, rules := {}, htmlRules := {},
    finalRules := { required := some true } }

/-- Scenario B DOM: `username` holding `"John"`. -/
def c5inputsB : Inputs := fun n =>
  if n = "username" then some { value := "John" } else none

/-- Scenario B configuration: `minLength` 5 with no override. -/
def c5cfgB : TFieldConfig :=
  { fieldName := "username", type := .text, rules := {}, htmlRules := {},
    finalRules := { minLength := some (some 5) } }

/-- Emptiness-exemption scenario DOM: a `bio` input holding only
whitespace. -/
def c6inputs : Inputs := fun n =>
  if n = "bio" then some { value := "   " } else none

/-- Non-required configuration carrying every string-like constraint. -/
def c6cfg : TFieldConfig :=
  { fieldName := "bio", type := .text, rules := {}, htmlRules := {},
    finalRules := { minLength := some (some 3), maxLength := some (some 10),
                    pattern := some (fun s => decide (s = "x")) } }

/-- Validation-pass scenario DOM: `a` empty, `b` filled, nothing else. -/
def c3inputs : Inputs := fun n =>
  if n = "a" then some { value := "" }
  else if n = "b" then some { value := "hello" } else none

/-- Required field `a` (violating: its value is empty). -/
def c3cfgA : TFieldConfig :=
  { fieldName := "a", type := .text, rules := {}, htmlRules := {},
    finalRules := { required := some true } }

/-- Required field `b` (passing: its value is non-empty). -/
def c3cfgB : TFieldConfig :=
  { fieldName := "b", type := .text, rules := {}, htmlRules := {},
    finalRules := { required := some true } }

/-- Registered field `c` whose input element does not resolve. -/
def c3cfgC : TFieldConfig :=
  { fieldName := "c", type := .text, rules := {}, htmlRules := {},
    finalRules := { required := some true } }

/-- The registry for the validation-pass scenario. -/
def c3fields : List TFieldConfig := [c3cfgA, c3cfgB]

/-- Error elements for the validation-pass scenario, both showing a
stale message from an earlier pass. -/
def c3errors : Errors := fun n =>
  if n = "a" then some ⟨"old", "block"⟩
  else if n = "b" then some ⟨"old", "block"⟩ else none

/-- NaN-coercion scenario DOM: a numeric `age` input holding `"abc"`. -/
def c10inputs : Inputs := fun n =>
  if n = "age" then some { value := "abc" } else none

/-- Numeric configuration with both bounds set. -/
def c10cfg : TFieldConfig :=
  { fieldName := "age", type := .number, rules := {}, htmlRules := {},
    finalRules := { min := some (some 18), max := some (some 100) } }

/-- Registration-sequence scenario DOM: inputs `a` and `b` with no
attributes. -/
def c8inputs : Inputs := fun n =>
  if n = "a" then some { value := "" }
  else if n = "b" then some { value := "" } else none

/-- Explicit string-like rules for the registration scenario. -/
def c8sArg : StringRuleArg := { minLength := some (some 3) }

/-- Explicit numeric rules for the registration scenario. -/
def c8nArg : NumberRuleArg := { min := some (some 18) }

/-- An empty DOM: no input element resolves. -/
def c7inputs : Inputs := fun _ => none

/-- The registration sequence: a text field then a number field. -/
def c8calls : List RegCall :=
  [{ fieldName := "a", ty := .text, rules := some c8sArg },
   { fieldName := "b", ty := .number, rules := some c8nArg }]

/-- The configuration stored for field `a` by the sequence. -/
def c8cfgA : TFieldConfig :=
  { fieldName := "a", type := .text, rules := strToRule c8sArg,
    htmlRules := {}, finalRules := strToRule c8sArg }

/-- The configuration stored for field `b` by the sequence. -/
def c8cfgB : TFieldConfig :=
  { fieldName := "b", type := .number, rules := numToRule c8nArg,
    htmlRules := {}, finalRules := numToRule c8nArg }

/-- The source's field check agrees with the specification's ordered
short-circuit chain, and a violation's message is resolved from its
kind. -/
theorem validateField_spec (inputs : Inputs) (c : TFieldConfig) :
    validateField inputs c =
      (specFieldViolation inputs c).map
        (fun k => ⟨c.fieldName, resolveMessage c.finalRules k⟩) := by
  unfold validateField specFieldViolation
  cases hin : inputs c.fieldName with
  | none => rfl
  | some input =>
    simp only [resolveMessage, vkKey]
    split_ifs <;> rfl

/-- A produced violation names the field it was produced for. -/
theorem validateField_fieldName (inputs : Inputs) (c : TFieldConfig)
    (err : ValidationError) (h : validateField inputs c = some err) :
    err.fieldName = c.fieldName := by
  rw [validateField_spec] at h
  cases hs : specFieldViolation inputs c with
  | none => rw [hs] at h; exact absurd h (by simp)
  | some k => rw [hs] at h; simp only [Option.map_some'] at h; cases h; rfl

/-- A field whose input element does not resolve produces no violation. -/
theorem validateField_unresolved (inputs : Inputs) (c : TFieldConfig)
    (h : inputs c.fieldName = none) : validateField inputs c = none := by
  unfold validateField
  rw [h]

theorem setErrorElem_self (e : Errors) (n : String) (el : ErrorElem) :
    setErrorElem e n el n = some el := by
  simp [setErrorElem]

theorem setErrorElem_ne (e : Errors) (n : String) (el : ErrorElem) (m : String)
    (h : m ≠ n) : setErrorElem e n el m = e m := by
  simp [setErrorElem, h]

theorem showError_isSome (e : Errors) (n msg m : String) :
    ((showError e n msg) m).isSome = (e m).isSome := by
  by_cases hm : m = n
  · subst hm
    cases h : e m with
    | none => simp [showError, h]
    | some el => simp [showError, h, setErrorElem_self]
  · cases h : e n with
    | none => simp [showError, h]
    | some el => simp [showError, h, setErrorElem_ne _ _ _ _ hm]

theorem showError_ne (e : Errors) (n msg m : String) (h : m ≠ n) :
    showError e n msg m = e m := by
  cases hn : e n with
  | none => simp [showError, hn]
  | some el => simp [showError, hn, setErrorElem_ne _ _ _ _ h]

theorem showError_self (e : Errors) (n msg : String) :
    showError e n msg n = if (e n).isSome then some ⟨msg, "block"⟩ else e n := by
  cases h : e n with
  | none => simp [showError, h]
  | some el => simp [showError, h, setErrorElem_self]

theorem clearStep_isSome (e : Errors) (c : TFieldConfig) (m : String) :
    ((clearStep e c) m).isSome = (e m).isSome := by
  by_cases hm : m = c.fieldName
  · subst hm
    cases h : e c.fieldName with
    | none => simp [clearStep, h]
    | some el => simp [clearStep, h, setErrorElem_self]
  · cases h : e c.fieldName with
    | none => simp [clearStep, h]
    | some el => simp [clearStep, h, setErrorElem_ne _ _ _ _ hm]

theorem clearStep_ne (e : Errors) (c : TFieldConfig) (m : String)
    (h : m ≠ c.fieldName) : clearStep e c m = e m := by
  cases hn : e c.fieldName with
  | none => simp [clearStep, hn]
  | some el => simp [clearStep, hn, setErrorElem_ne _ _ _ _ h]

theorem clearStep_none (e : Errors) (c : TFieldConfig) (m : String)
    (h : e m = none) : clearStep e c m = none := by
  by_cases hm : m = c.fieldName
  · subst hm; simp [clearStep, h]
  · rw [clearStep_ne _ _ _ hm, h]

theorem clearErrors_cons (c : TFieldConfig) (t : List TFieldConfig) (e : Errors) :
    clearErrors (c :: t) e = clearErrors t (clearStep e c) := rfl

theorem clearErrors_isSome (fields : List TFieldConfig) (e : Errors) (m : String) :
    ((clearErrors fields e) m).isSome = (e m).isSome := by
  induction fields generalizing e with
  | nil => rfl
  | cons c t ih => rw [clearErrors_cons, ih, clearStep_isSome]

theorem clearErrors_ne (fields : List TFieldConfig) (e : Errors) (m : String)
    (h : m ∉ fields.map TFieldConfig.fieldName) : clearErrors fields e m = e m := by
  induction fields generalizing e with
  | nil => rfl
  | cons c t ih =>
    simp only [List.map_cons, List.mem_cons, not_or] at h
    rw [clearErrors_cons, ih _ h.2, clearStep_ne _ _ _ h.1]

theorem clearErrors_none (fields : List TFieldConfig) (e : Errors) (m : String)
    (h : e m = none) : clearErrors fields e m = none := by
  induction fields generalizing e with
  | nil => exact h
  | cons c t ih => rw [clearErrors_cons]; exact ih _ (clearStep_none _ _ _ h)

theorem clearErrors_mem (fields : List TFieldConfig) (e : Errors) (m : String)
    (hmem : m ∈ fields.map TFieldConfig.fieldName) (hs : (e m).isSome) :
    clearErrors fields e m = some ⟨"", "none"⟩ := by
  induction fields generalizing e with
  | nil => simp at hmem
  | cons c t ih =>
    rw [clearErrors_cons]
    by_cases ht : m ∈ t.map TFieldConfig.fieldName
    · exact ih _ ht (by rw [clearStep_isSome]; exact hs)
    · simp only [List.map_cons, List.mem_cons] at hmem
      have hm : m = c.fieldName := hmem.resolve_right ht
      subst hm
      rw [clearErrors_ne _ _ _ ht]
      cases h : e c.fieldName with
      | none => rw [h] at hs; simp at hs
      | some el => simp [clearStep, h, setErrorElem_self]

theorem renderStep_none (inputs : Inputs) (acc : Bool × Errors) (c : TFieldConfig)
    (h : validateField inputs c = none) : renderStep inputs acc c = acc := by
  simp [renderStep, h]

theorem renderStep_some (inputs : Inputs) (acc : Bool × Errors) (c : TFieldConfig)
    (err : ValidationError) (h : validateField inputs c = some err) :
    renderStep inputs acc c = (false, showError acc.2 err.fieldName err.message) := by
  simp [renderStep, h]

theorem renderFold_fst (inputs : Inputs) (fs : List TFieldConfig) (b : Bool) (e : Errors) :
    (fs.foldl (renderStep inputs) (b, e)).1 =
      (b && fs.all fun c => (validateField inputs c).isNone) := by
  induction fs generalizing b e with
  | nil => simp
  | cons c t ih =>
    rw [List.foldl_cons]
    cases h : validateField inputs c with
    | none => rw [renderStep_none _ _ _ h, ih, List.all_cons, h]; simp
    | some err => rw [renderStep_some _ _ _ _ h, ih, List.all_cons, h]; simp

theorem renderFold_isSome (inputs : Inputs) (fs : List TFieldConfig) (b : Bool)
    (e : Errors) (m : String) :
    ((fs.foldl (renderStep inputs) (b, e)).2 m).isSome = (e m).isSome := by
  induction fs generalizing b e with
  | nil => rfl
  | cons c t ih =>
    rw [List.foldl_cons]
    cases h : validateField inputs c with
    | none => rw [renderStep_none _ _ _ h, ih]
    | some err => rw [renderStep_some _ _ _ _ h, ih, showError_isSome]

theorem renderFold_ne (inputs : Inputs) (fs : List TFieldConfig) (b : Bool)
    (e : Errors) (m : String) (h : m ∉ fs.map TFieldConfig.fieldName) :
    (fs.foldl (renderStep inputs) (b, e)).2 m = e m := by
  induction fs generalizing b e with
  | nil => rfl
  | cons c t ih =>
    simp only [List.map_cons, List.mem_cons, not_or] at h
    rw [List.foldl_cons]
    cases hv : validateField inputs c with
    | none => rw [renderStep_none _ _ _ hv]; exact ih _ _ h.2
    | some err =>
      rw [renderStep_some _ _ _ _ hv, ih _ _ h.2, showError_ne]
      rw [validateField_fieldName inputs c err hv]
      exact h.1

theorem renderFold_mem (inputs : Inputs) (fs : List TFieldConfig) (b : Bool)
    (e : Errors) (c : TFieldConfig)
    (hnd : (fs.map TFieldConfig.fieldName).Nodup) (hc : c ∈ fs) :
    (fs.foldl (renderStep inputs) (b, e)).2 c.fieldName =
      match validateField inputs c with
      | some err =>
        if (e c.fieldName).isSome then some ⟨err.message, "block"⟩ else e c.fieldName
      | none => e c.fieldName := by
  induction fs generalizing b e with
  | nil => simp at hc
  | cons c0 t ih =>
    simp only [List.map_cons, List.nodup_cons] at hnd
    rw [List.foldl_cons]
    rcases List.mem_cons.mp hc with hec | hct
    · subst hec
      have hout : c.fieldName ∉ t.map TFieldConfig.fieldName := hnd.1
      cases hv : validateField inputs c with
      | none => rw [renderStep_none _ _ _ hv, renderFold_ne _ _ _ _ _ hout]
      | some err =>
        rw [renderStep_some _ _ _ _ hv, renderFold_ne _ _ _ _ _ hout]
        rw [validateField_fieldName inputs c err hv, showError_self]
    · have hne : c.fieldName ≠ c0.fieldName := by
        intro heq
        exact hnd.1 (heq ▸ List.mem_map_of_mem TFieldConfig.fieldName hct)
      cases hv : validateField inputs c0 with
      | none => rw [renderStep_none _ _ _ hv]; exact ih _ _ hnd.2 hct
      | some err =>
        rw [renderStep_some _ _ _ _ hv, ih _ _ hnd.2 hct]
        rw [showError_ne _ _ _ _ (validateField_fieldName inputs c0 err hv ▸ hne)]

theorem validate_fst (fields : List TFieldConfig) (inputs : Inputs) (errors : Errors) :
    (validate fields inputs errors).1 =
      fields.all (fun c => (validateField inputs c).isNone) := by
  unfold validate
  rw [renderFold_fst]
  simp


theorem jsLtB_nan (m : Option JsNum) : jsLtB none m = false := by
  unfold jsLtB
  rcases m with _ | (_ | b) <;> rfl

theorem jsGtB_nan (m : Option JsNum) : jsGtB none m = false := by
  unfold jsGtB
  rcases m with _ | (_ | b) <;> rfl

theorem ov_map_spec {α β : Type} (f : α → β) (ho jo : Option α) :
    ((jo.map f).isSome = true → (ov ho jo).map f = jo.map f) ∧
    (jo.map f = none → (ov ho jo).map f = ho.map f) ∧
    ((ov ho jo).map f = none ↔ ho.map f = none ∧ jo.map f = none) := by
  cases jo <;> cases ho <;> simp [ov]

theorem getDefault_required (r : Rule) :
    getDefaultErrorMessage "required" r = "Это поле обязательно" := rfl

theorem getDefault_minLength (r : Rule) :
    getDefaultErrorMessage "minLength" r =
      "Минимум " ++ boundRepr r.minLength ++ " символов" := rfl

theorem extractHtmlRules_legal (inputs : Inputs) (n : String) (ty : FieldType)
    (r : Rule) (h : extractHtmlRules inputs n ty = .ok r) : legalRule ty r := by
  unfold extractHtmlRules at h
  cases hin : inputs n with
  | none => rw [hin] at h; exact absurd h (by simp)
  | some input =>
    rw [hin] at h
    injection h with h2
    subst h2
    cases ty <;> simp [legalRule]

theorem toRule_legal (ty : FieldType) (a : RuleArg ty) : legalRule ty (toRule ty a) := by
  cases ty <;> simp [toRule, strToRule, numToRule, legalRule]

theorem jsRulesOf_legal (ty : FieldType) (rules : Option (RuleArg ty)) :
    legalRule ty (jsRulesOf ty rules) := by
  cases rules with
  | none => cases ty <;> simp [jsRulesOf, legalRule]
  | some a => exact toRule_legal ty a

theorem mergeRules_legal (ty : FieldType) (h j : Rule)
    (hh : legalRule ty h) (hj : legalRule ty j) : legalRule ty (mergeRules h j) := by
  cases ty <;> simp_all [legalRule, mergeRules, ov]

theorem setField_mem (st : List TFieldConfig) (cfg c : TFieldConfig)
    (h : c ∈ setField st cfg) : c = cfg ∨ c ∈ st := by
  induction st with
  | nil => simp [setField] at h; exact Or.inl h
  | cons c0 t ih =>
    unfold setField at h
    by_cases he : c0.fieldName = cfg.fieldName
    · rw [if_pos he] at h
      rcases List.mem_cons.mp h with h1 | h2
      · exact Or.inl h1
      · exact Or.inr (List.mem_cons_of_mem _ h2)
    · rw [if_neg he] at h
      rcases List.mem_cons.mp h with h1 | h2
      · exact Or.inr (h1 ▸ List.mem_cons_self _ _)
      · rcases ih h2 with h3 | h4
        · exact Or.inl h3
        · exact Or.inr (List.mem_cons_of_mem _ h4)

theorem addField_legal (inputs : Inputs) (st : List TFieldConfig) (n : String)
    (ty : FieldType) (rules : Option (RuleArg ty)) (st' : List TFieldConfig)
    (hst : ∀ c ∈ st, legalRule c.type c.finalRules)
    (h : addField inputs st n ty rules = .ok st') :
    ∀ c ∈ st', legalRule c.type c.finalRules := by
  unfold addField at h
  cases hx : extractHtmlRules inputs n ty with
  | error e => rw [hx] at h; exact absurd h (by simp)
  | ok hr =>
    rw [hx] at h
    injection h with h2
    subst h2
    intro c hc
    rcases setField_mem _ _ _ hc with h3 | h4
    · subst h3
      exact mergeRules_legal ty hr (jsRulesOf ty rules)
        (extractHtmlRules_legal inputs n ty hr hx) (jsRulesOf_legal ty rules)
    · exact hst c h4

theorem runRegs_legal (inputs : Inputs) (calls : List RegCall) :
    ∀ st st' : List TFieldConfig,
      (∀ c ∈ st, legalRule c.type c.finalRules) →
      runRegs inputs st calls = .ok st' →
      ∀ c ∈ st', legalRule c.type c.finalRules := by
  induction calls with
  | nil =>
    intro st st' hst h
    unfold runRegs at h
    injection h with h2
    subst h2
    exact hst
  | cons rc t ih =>
    intro st st' hst h
    unfold runRegs at h
    cases ha : addField inputs st rc.fieldName rc.ty rc.rules with
    | error e => rw [ha] at h; exact absurd h (by simp)
    | ok st1 =>
      rw [ha] at h
      exact ih st1 st' (addField_legal inputs st rc.fieldName rc.ty rc.rules st1 hst ha) h

theorem clearErrors_validate (fields : List TFieldConfig) (inputs : Inputs)
    (errors : Errors) :
    clearErrors fields ((validate fields inputs errors).2) = clearErrors fields errors := by
  funext m
  by_cases hmem : m ∈ fields.map TFieldConfig.fieldName
  · by_cases hs : (errors m).isSome
    · have hs1 : (((validate fields inputs errors).2) m).isSome = true := by
        unfold validate
        rw [renderFold_isSome, clearErrors_isSome]
        exact hs
      rw [clearErrors_mem _ _ _ hmem hs1, clearErrors_mem _ _ _ hmem hs]
    · have h0 : errors m = none := Option.not_isSome_iff_eq_none.mp hs
      have h1 : (validate fields inputs errors).2 m = none := by
        apply Option.not_isSome_iff_eq_none.mp
        unfold validate
        rw [renderFold_isSome, clearErrors_isSome]
        exact hs
      rw [clearErrors_none _ _ _ h1, clearErrors_none _ _ _ h0]
  · rw [clearErrors_ne _ _ _ hmem, clearErrors_ne _ _ _ hmem]
    unfold validate
    rw [renderFold_ne _ _ _ _ _ hmem, clearErrors_ne _ _ _ hmem]

/-- Claim C1: per-field validation short-circuits at the first violation
in the fixed order (required on the trimmed value, then the emptiness
stop, then min before max for numeric fields, then minLength before
maxLength before pattern for string-like fields), producing at most one
violation per field per pass: `validateField` equals the specification's
priority chain. -/
theorem claim_C1_short_circuit_order (inputs : Inputs) (c : TFieldConfig) :
    validateField inputs c =
      (specFieldViolation inputs c).map
        (fun k => ⟨c.fieldName, resolveMessage c.finalRules k⟩) :=
  validateField_spec inputs c

/-- Claim C2: rule merging is override-correct — for every key present
in the explicit rules the merge takes the explicit value, a key present
only in the markup rules passes through, and a key is absent from the
merge exactly when it is absent from both sources. -/
theorem claim_C2_merge_override (h j : Rule) (k : RKey) :
    ((j.get k).isSome = true → (mergeRules h j).get k = j.get k) ∧
    (j.get k = none → (mergeRules h j).get k = h.get k) ∧
    ((mergeRules h j).get k = none ↔ h.get k = none ∧ j.get k = none) := by
  cases k
  case required => exact ov_map_spec RVal.b h.required j.required
  case minLength => exact ov_map_spec RVal.n h.minLength j.minLength
  case maxLength => exact ov_map_spec RVal.n h.maxLength j.maxLength
  case pattern => exact ov_map_spec RVal.re h.pattern j.pattern
  case min => exact ov_map_spec RVal.n h.min j.min
  case max => exact ov_map_spec RVal.n h.max j.max
  case getMessage => exact ov_map_spec RVal.s h.getMessage j.getMessage

/-- Witness for claim C2 at concrete rule sets: a key present in both
sources takes the explicit value, and a key present only in the markup
rules passes through. -/
theorem claim_C2_witness :
    (mergeRules { min := some (some 1) } { min := some (some 2) }).get RKey.min =
      (Rule.get { min := some (some 2) } RKey.min) ∧
    (mergeRules { min := some (some 1) } { min := some (some 2) }).get RKey.max =
      (Rule.get { min := some (some 1) } RKey.max) :=
  ⟨(claim_C2_merge_override { min := some (some 1) } { min := some (some 2) } RKey.min).1 rfl,
   (claim_C2_merge_override { min := some (some 1) } { min := some (some 2) } RKey.max).2.1 rfl⟩

/-- Claim C3: `validate()` clears every previously shown indicator
first, evaluates every registered field (violations across fields are
not short-circuited), renders each violating field's message, returns
true iff no field violated, and skips a field whose input element does
not resolve as vacuously valid. -/
theorem claim_C3_validate_contract (fields : List TFieldConfig) (inputs : Inputs)
    (errors : Errors) (hnd : (fields.map TFieldConfig.fieldName).Nodup) :
    ((validate fields inputs errors).1 = true ↔
      ∀ c ∈ fields, validateField inputs c = none) ∧
    (∀ c ∈ fields, ∀ err, validateField inputs c = some err →
      (errors c.fieldName).isSome = true →
      (validate fields inputs errors).2 c.fieldName = some ⟨err.message, "block"⟩) ∧
    (∀ c ∈ fields, validateField inputs c = none →
      (errors c.fieldName).isSome = true →
      (validate fields inputs errors).2 c.fieldName = some ⟨"", "none"⟩) ∧
    (∀ c : TFieldConfig, inputs c.fieldName = none → validateField inputs c = none) := by
  refine ⟨?_, ?_, ?_, fun c h => validateField_unresolved inputs c h⟩
  · rw [validate_fst]
    simp [List.all_eq_true, Option.isNone_iff_eq_none]
  · intro c hc err hv hs
    unfold validate
    rw [renderFold_mem _ _ _ _ _ hnd hc]
    simp only [hv]
    rw [clearErrors_isSome, if_pos hs]
  · intro c hc hv hs
    unfold validate
    rw [renderFold_mem _ _ _ _ _ hnd hc]
    simp only [hv]
    exact clearErrors_mem _ _ _ (List.mem_map_of_mem _ hc) hs

/-- Witness for claim C3 on a two-field form with stale indicators: the
violating field `a` gets its message rendered, the passing field `b`
gets its stale indicator cleared, and a field whose input is missing
yields no violation. -/
theorem claim_C3_witness :
    (validate c3fields c3inputs c3errors).2 "a" =
      some ⟨"Это поле обязательно", "block"⟩ ∧
    (validate c3fields c3inputs c3errors).2 "b" = some ⟨"", "none"⟩ ∧
    validateField c3inputs c3cfgC = none := by
  have hnd : (c3fields.map TFieldConfig.fieldName).Nodup := by decide
  refine ⟨?_, ?_, ?_⟩
  · exact (claim_C3_validate_contract c3fields c3inputs c3errors hnd).2.1 c3cfgA
      (by simp [c3fields]) ⟨"a", "Это поле обязательно"⟩ (by decide) rfl
  · exact (claim_C3_validate_contract c3fields c3inputs c3errors hnd).2.2.1 c3cfgB
      (by simp [c3fields]) (by decide) rfl
  · exact (claim_C3_validate_contract c3fields c3inputs c3errors hnd).2.2.2 c3cfgC rfl

/-- Counterexample to claim C4 as stated: an explicit `getMessage`
override returning the empty string is falsy under `||`, so the rendered
message is the default-table text rather than the override's return
value — the override is not used verbatim for every possible return
value. -/
theorem claim_C4_counterexample :
    c4cfg.finalRules.getMessage = some "" ∧
    validateField c4inputs c4cfg = some ⟨"username", "Это поле обязательно"⟩ ∧
    ("Это поле обязательно" : String) ≠ "" := by
  refine ⟨rfl, by decide, by decide⟩

/-- Claim C4 as amended: for every violation on a field whose
effectiveRules include a `getMessage` override, the rendered message is
exactly the override's return value whenever that value is non-empty
(a truthy string); an empty-string return falls back to the default
table. -/
theorem claim_C4_getMessage_verbatim (inputs : Inputs) (c : TFieldConfig)
    (err : ValidationError) (m : String)
    (hm : c.finalRules.getMessage = some m) (hne : m ≠ "")
    (hv : validateField inputs c = some err) : err.message = m := by
  rw [validateField_spec] at hv
  cases hs : specFieldViolation inputs c with
  | none => rw [hs] at hv; simp at hv
  | some k =>
    rw [hs] at hv
    simp only [Option.map_some'] at hv
    have he : err = ⟨c.fieldName, resolveMessage c.finalRules k⟩ := by
      injection hv with h'
      exact h'.symm
    subst he
    show resolveMessage c.finalRules k = m
    unfold resolveMessage
    simp only [hm, orDefault]
    simp [hne]

/-- Witness for the amended claim C4: a truthy `"Custom"` override on a
required violation renders exactly `"Custom"`. -/
theorem claim_C4_witness :
    c4wcfg.finalRules.getMessage = some "Custom" ∧
    validateField c4winputs c4wcfg = some ⟨"username", "Custom"⟩ ∧
    (⟨"username", "Custom"⟩ : ValidationError).message = "Custom" :=
  ⟨rfl, by decide,
   claim_C4_getMessage_verbatim c4winputs c4wcfg ⟨"username", "Custom"⟩ "Custom"
     rfl (by decide) (by decide)⟩

/-- Counterexample to claim C5 as stated: the default-message table is
in Russian — a required violation renders `"Это поле обязательно"`, not
`"This field is required"`, and a minLength-5 violation renders
`"Минимум 5 символов"`, not `"Minimum 5 characters"`. -/
theorem claim_C5_counterexample :
    validateField c5inputs c5cfg = some ⟨"username", "Это поле обязательно"⟩ ∧
    ("Это поле обязательно" : String) ≠ "This field is required" ∧
    validateField c5inputsB c5cfgB = some ⟨"username", "Минимум 5 символов"⟩ ∧
    ("Минимум 5 символов" : String) ≠ "Minimum 5 characters" := by
  refine ⟨by decide, by decide, by decide, by decide⟩

/-- Claim C5 as amended: for any field with no `getMessage` override the
default table renders `"Это поле обязательно"` for a required violation,
and for a minLength violation the template interpolates the bound — with
bound 5, `"Минимум 5 символов"`. -/
theorem claim_C5_default_messages
    (i1 : Inputs) (c1 : TFieldConfig) (inp1 : InputElem)
    (h1g : c1.finalRules.getMessage = none)
    (h1i : i1 c1.fieldName = some inp1)
    (h1r : requiredTruthy c1.finalRules)
    (h1v : jsTrim inp1.value = "")
    (i2 : Inputs) (c2 : TFieldConfig) (inp2 : InputElem)
    (h2g : c2.finalRules.getMessage = none)
    (h2i : i2 c2.fieldName = some inp2)
    (h2t : c2.type ≠ .number)
    (h2m : c2.finalRules.minLength = some (some 5))
    (h2v : jsTrim inp2.value ≠ "")
    (h2l : (jsTrim inp2.value).length < 5) :
    validateField i1 c1 = some ⟨c1.fieldName, "Это поле обязательно"⟩ ∧
    validateField i2 c2 = some ⟨c2.fieldName, "Минимум 5 символов"⟩ := by
  constructor
  · rw [validateField_spec]
    unfold specFieldViolation
    simp only [h1i]
    rw [if_pos ⟨h1r, h1v⟩]
    simp only [Option.map_some', Option.some.injEq, ValidationError.mk.injEq]
    refine ⟨trivial, ?_⟩
    unfold resolveMessage vkKey
    rw [getDefault_required]
    simp [h1g, orDefault]
  · rw [validateField_spec]
    unfold specFieldViolation
    simp only [h2i]
    have hc1 : ¬(requiredTruthy c2.finalRules ∧ jsTrim inp2.value = "") :=
      fun hx => h2v hx.2
    have hlt : lenLtB (jsTrim inp2.value).length c2.finalRules.minLength = true := by
      rw [h2m]
      show decide (((jsTrim inp2.value).length : ℚ) < 5) = true
      simp only [decide_eq_true_eq]
      exact_mod_cast h2l
    rw [if_neg hc1, if_neg h2v, if_neg h2t, if_pos hlt]
    simp only [Option.map_some', Option.some.injEq, ValidationError.mk.injEq]
    refine ⟨trivial, ?_⟩
    unfold resolveMessage vkKey
    rw [getDefault_minLength, h2m]
    simp only [h2g, orDefault]
    decide

/-- Witness for the amended claim C5 at scenarios A and B: the empty
required `username` renders the Russian required text, and `"John"`
against minLength 5 renders the interpolated Russian minimum text. -/
theorem claim_C5_witness :
    validateField c5inputs c5cfg = some ⟨"username", "Это поле обязательно"⟩ ∧
    validateField c5inputsB c5cfgB = some ⟨"username", "Минимум 5 символов"⟩ :=
  claim_C5_default_messages c5inputs c5cfg { value := "" } rfl rfl rfl (by decide)
    c5inputsB c5cfgB { value := "John" } rfl rfl (by decide) rfl (by decide) (by decide)

/-- Claim C6: the emptiness exemption — a registered field whose trimmed
value is empty and whose effective rules are not required produces no
violation, whatever other constraints are set. -/
theorem claim_C6_emptiness_exemption (inputs : Inputs) (c : TFieldConfig)
    (inp : InputElem) (h1 : inputs c.fieldName = some inp)
    (h2 : jsTrim inp.value = "") (h3 : ¬ requiredTruthy c.finalRules) :
    validateField inputs c = none := by
  rw [validateField_spec]
  unfold specFieldViolation
  simp only [h1]
  simp [h2, h3]

/-- Witness for claim C6: a whitespace-only optional field carrying
minLength, maxLength and pattern constraints validates. -/
theorem claim_C6_witness : validateField c6inputs c6cfg = none :=
  claim_C6_emptiness_exemption c6inputs c6cfg
    { value := "   " } rfl (by decide) (by decide)

/-- Claim C7: registering a field whose input element does not resolve
throws the configuration error synchronously, before any rule
extraction, and stores nothing. -/
theorem claim_C7_unresolvable_registration (inputs : Inputs)
    (st : List TFieldConfig) (fieldName : String) (ty : FieldType)
    (rules : Option (RuleArg ty)) (h : inputs fieldName = none) :
    addField inputs st fieldName ty rules =
      .error ("Input not found: input-" ++ fieldName) := by
  unfold addField extractHtmlRules
  simp only [h]

/-- Witness for claim C7: registering `missing` against an empty DOM
yields the configuration error. -/
theorem claim_C7_witness :
    addField c7inputs [] "missing" FieldType.text
        (none : Option (RuleArg FieldType.text)) =
      Except.error ("Input not found: input-" ++ "missing") :=
  claim_C7_unresolvable_registration c7inputs [] "missing" FieldType.text none rfl

/-- Claim C8: after any successful sequence of registrations, every
stored configuration's effective rules carry only keys legal for the
field's type — a number field never carries
`pattern`/`minLength`/`maxLength` and a string-like field never carries
`min`/`max`. -/
theorem claim_C8_rules_legal (inputs : Inputs) (calls : List RegCall)
    (st' : List TFieldConfig) (h : runRegs inputs [] calls = .ok st') :
    ∀ c ∈ st', legalRule c.type c.finalRules :=
  runRegs_legal inputs calls [] st' (by simp) h

/-- Witness for claim C8: registering a text field with a minLength rule
and a number field with a min rule stores two configurations, each
carrying only its type's legal keys. -/
theorem claim_C8_witness :
    runRegs c8inputs [] c8calls = Except.ok [c8cfgA, c8cfgB] ∧
    legalRule c8cfgA.type c8cfgA.finalRules ∧
    legalRule c8cfgB.type c8cfgB.finalRules := by
  have h : runRegs c8inputs [] c8calls = Except.ok [c8cfgA, c8cfgB] := rfl
  exact ⟨h, claim_C8_rules_legal c8inputs c8calls [c8cfgA, c8cfgB] h c8cfgA (by simp),
         claim_C8_rules_legal c8inputs c8calls [c8cfgA, c8cfgB] h c8cfgB (by simp)⟩

/-- Claim C9: `validate()` is idempotent — a second pass with unchanged
field values returns the same boolean and leaves the error elements in
the same state as the first. -/
theorem claim_C9_validate_idempotent (fields : List TFieldConfig) (inputs : Inputs)
    (errors : Errors) :
    (validate fields inputs ((validate fields inputs errors).2)).1 =
      (validate fields inputs errors).1 ∧
    (validate fields inputs ((validate fields inputs errors).2)).2 =
      (validate fields inputs errors).2 := by
  have h : validate fields inputs ((validate fields inputs errors).2) =
      validate fields inputs errors := by
    have hc := clearErrors_validate fields inputs errors
    calc validate fields inputs ((validate fields inputs errors).2)
        = fields.foldl (renderStep inputs)
            (true, clearErrors fields ((validate fields inputs errors).2)) := rfl
      _ = fields.foldl (renderStep inputs) (true, clearErrors fields errors) := by
            rw [hc]
      _ = validate fields inputs errors := rfl
  exact ⟨by rw [h], by rw [h]⟩

/-- Claim C10: a number-type field whose trimmed value is non-empty but
coerces to `NaN` passes both the min and max checks (`NaN` comparisons
are false), so it produces no violation and `validate()` counts it
valid even with both bounds set. -/
theorem claim_C10_nan_passes (inputs : Inputs) (c : TFieldConfig) (inp : InputElem)
    (errs : Errors) (h1 : inputs c.fieldName = some inp) (h2 : c.type = .number)
    (h3 : jsTrim inp.value ≠ "") (h4 : jsNumber (jsTrim inp.value) = none) :
    validateField inputs c = none ∧ (validate [c] inputs errs).1 = true := by
  have hv : validateField inputs c = none := by
    rw [validateField_spec]
    unfold specFieldViolation
    simp only [h1]
    simp [h3, h2, h4, jsLtB_nan, jsGtB_nan]
  refine ⟨hv, ?_⟩
  rw [validate_fst]
  simp [hv]

/-- Witness for claim C10: a numeric `age` field holding `"abc"` with
both bounds set produces no violation and validates. -/
theorem claim_C10_witness :
    validateField c10inputs c10cfg = none ∧
    (validate [c10cfg] c10inputs (fun _ => none)).1 = true :=
  claim_C10_nan_passes c10inputs c10cfg { value := "abc" } (fun _ => none)
    rfl rfl (by decide) (by decide)
